import Mathlib

/-!
Verification of the aria-bridge workspace broker (src/bin/aria-bridge-host.js)
and the reference bridge client state machine (BridgeWebSocket).

The definitions below are shallow embeddings of the JavaScript/TypeScript
source: JS strings become String, JS numbers become Nat or Int, absent or
undefined fields become Option, and the JS truthiness of `x || d` on strings
is modelled by jsOrStr (empty string and undefined both fall back to the
default, as in JS).  Mutable broker and client state is passed explicitly.
-/

/- ===================== Host: filter and routing engine ===================== -/

/-- Model of the host helper lower(val) applied to a string value:
JS toLowerCase, written over the character list so that it reduces in the
kernel. (The null/undefined guard of the JS helper is handled at call sites
by jsOrStr, which resolves the Option first.) -/
def lower (s : String) : String := String.mk (s.data.map Char.toLower)

/-- JS `v || d` for an optional string field: undefined and the empty string
are falsy and fall back to the default. -/
def jsOrStr (v : Option String) (d : String) : String :=
  match v with
  | none => d
  | some s => if s = "" then d else s

/-- JS Array.prototype.indexOf: first index of the element, -1 when absent. -/
def jsIndexOf : List String → String → Int
  | [], _ => -1
  | x :: xs, y =>
    if x = y then 0
    else
      let r := jsIndexOf xs y
      if r = -1 then -1 else r + 1

/-- LEVEL_ORDER from the host. -/
def LEVEL_ORDER : List String := ["errors", "warn", "info", "trace"]

/-- getSubscriptionLevelForLogLevel from the host: maps a log level of an
event to a subscription tier. -/
def getSubscriptionLevelForLogLevel (logLevel : String) : String :=
  match lower logLevel with
  | "error" => "errors"
  | "warn" => "warn"
  | "debug" => "trace"
  | _ => "info"

/-- subscriptionIncludesLevel from the host.  The argument is Option to model
the JS `subscribedLevels || [errors]` default: undefined falls back, an
explicit empty array does not (arrays are always truthy in JS). -/
def subscriptionIncludesLevel (subscribedLevels : Option (List String))
    (eventLogLevel : String) : Bool :=
  let eventLevel := getSubscriptionLevelForLogLevel eventLogLevel
  let eventIndex := jsIndexOf LEVEL_ORDER eventLevel
  let levels := (subscribedLevels.getD ["errors"]).map lower
  levels.any (fun sub => decide (eventIndex ≤ jsIndexOf LEVEL_ORDER sub))

/-- bridgeHasCapability from the host: `bridgeCaps` is undefined when the
bridge never sent hello (no entry in the bridgeCapabilities map). -/
def bridgeHasCapability (bridgeCaps : Option (List String)) (capability : String) : Bool :=
  let cap := lower capability
  if cap = "" then false
  else ((bridgeCaps.getD []).map lower).contains cap

/-- consumerWantsCapability from the host: an empty requested set means no
restriction; the JS filter(Boolean) drops empty strings. -/
def consumerWantsCapability (consumerCaps : Option (List String)) (capability : String) : Bool :=
  let requested := ((consumerCaps.getD []).map lower).filter (fun s => s != "")
  if requested.isEmpty then true
  else requested.contains (lower capability)

/-- A wire message as seen by the host router; absent JSON fields are none. -/
structure Message where
  type : Option String := none
  level : Option String := none
  message : Option String := none
  secret : Option String := none
  role : Option String := none
  clientId : Option String := none
  levels : Option (List String) := none
  capabilities : Option (List String) := none
  llm_filter : Option String := none
  mime : Option String := none
  data : Option String := none
  route : Option String := none
  url : Option String := none
  platform : Option String := none
  timestamp : Option Nat := none
  id : Option String := none
deriving DecidableEq, Repr

/-- A stored consumer subscription, as written by the subscribe handler
(all three fields are always present once stored). -/
structure Subscription where
  levels : List String
  capabilities : List String
  llm_filter : String
deriving DecidableEq, Repr

/-- The per-bridge record stored by the hello handler. -/
structure BridgeMeta where
  capabilities : List String
  route : Option String := none
  url : Option String := none
  protocol : Nat := 1
  platform : Option String := none
  projectId : Option String := none
deriving DecidableEq, Repr

/-- The rolling overload window of the LLM filter guard. -/
structure WindowState where
  windowStart : Nat
  windowCount : Nat
deriving DecidableEq, Repr

def WINDOW_MS : Nat := 10000
def WINDOW_LIMIT : Nat := 500
def FILTER_LEVELS : List String := ["off", "minimal", "aggressive"]

/-- filterEventForConsumer from the host; Date.now() is the explicit `now`
argument and the mutable window variables are threaded through. -/
def filterEventForConsumer (now : Nat) (w : WindowState) (message : Message)
    (consumerMeta : Subscription) : Bool × WindowState :=
  let filter := lower (jsOrStr (some consumerMeta.llm_filter) "off")
  let w := if WINDOW_MS < now - w.windowStart then WindowState.mk now 0 else w
  let w := WindowState.mk w.windowStart (w.windowCount + 1)
  if WINDOW_LIMIT < w.windowCount ∧ filter ≠ "off" then
    (decide (message.level = some "error"), w)
  else if filter = "off" then (true, w)
  else
    let lvl := lower (jsOrStr message.level "")
    if filter = "minimal" then
      if lvl = "debug" ∨ lvl = "log" then (false, w) else (true, w)
    else if filter = "aggressive" then
      if lvl = "debug" ∨ lvl = "log" ∨ lvl = "info" then (false, w) else (true, w)
    else (true, w)

/-- The `subscription?.levels || [errors]` default of shouldRouteToConsumer:
a consumer that never subscribed defaults to errors only. -/
def consumerLevels (subscription : Option Subscription) : List String :=
  match subscription with
  | some s => s.levels
  | none => ["errors"]

/-- The `subscription?.capabilities || []` default of shouldRouteToConsumer. -/
def consumerRequestedCapabilities (subscription : Option Subscription) : List String :=
  match subscription with
  | some s => s.capabilities
  | none => []

/-- shouldRouteToConsumer from the host.  `bridgeCaps` is the result of the
bridgeCapabilities map lookup for the originating bridge (none when the
bridge never sent hello). -/
def shouldRouteToConsumer (now : Nat) (w : WindowState) (subscription : Option Subscription)
    (message : Message) (bridgeCaps : Option BridgeMeta) : Bool × WindowState :=
  let levels := consumerLevels subscription
  let requestedCapabilities := consumerRequestedCapabilities subscription
  let fr :=
    match subscription with
    | some s => filterEventForConsumer now w message s
    | none => (true, w)
  if fr.1 = false then (false, fr.2)
  else
    let effectiveLevel := jsOrStr message.level "info"
    if subscriptionIncludesLevel (some levels) effectiveLevel = false then (false, fr.2)
    else
      let messageType := lower (jsOrStr message.type "")
      if messageType = "pageview" ∨ messageType = "screenshot" ∨ messageType = "control"
          ∨ messageType = "network" ∨ messageType = "navigation" then
        if consumerWantsCapability (some requestedCapabilities) messageType = false then
          (false, fr.2)
        else if bridgeHasCapability (bridgeCaps.map (fun b => b.capabilities)) messageType = false then
          (false, fr.2)
        else (true, fr.2)
      else (true, fr.2)

/-- A connected consumer socket together with the consumerSubscriptions map
lookup for it (none when it never sent subscribe). -/
structure Consumer where
  readyState : Nat
  sub : Option Subscription
deriving DecidableEq, Repr

/-- One consumer evaluation in deliverToConsumers:
`consumer.readyState === 1 && shouldRouteToConsumer(...)` with JS
short-circuiting (the window is not advanced for closed sockets). -/
def evalConsumer (now : Nat) (msg : Message) (bcaps : Option BridgeMeta)
    (c : Consumer) (w : WindowState) : Bool × WindowState :=
  if c.readyState = 1 then shouldRouteToConsumer now w c.sub msg bcaps
  else (false, w)

/-- The delivery flags of one event for each consumer in order, threading the
overload window through the forEach loop. -/
def routeEventFlags (now : Nat) (msg : Message) (bcaps : Option BridgeMeta) :
    List Consumer → WindowState → List Bool × WindowState
  | [], w => ([], w)
  | c :: cs, w =>
    let p := evalConsumer now msg bcaps c w
    let rest := routeEventFlags now msg bcaps cs p.2
    (p.1 :: rest.1, rest.2)

/-- Per-consumer delivery counts for a batch of events routed in order. -/
def routeBatch (now : Nat) (bcaps : Option BridgeMeta) (consumers : List Consumer) :
    List Message → WindowState → List Nat → List Nat
  | [], _, counts => counts
  | msg :: rest, w, counts =>
    let p := routeEventFlags now msg bcaps consumers w
    routeBatch now bcaps consumers rest p.2
      (counts.zipWith (fun n b => n + if b then 1 else 0) p.1)

/-- Wording of the level-gate claim: the maximum LEVEL_ORDER index over the
subscribed levels of a consumer (-1 when the list is empty, matching the JS
indexOf sentinel for unknown levels). -/
def maxLevelIndex (levels : List String) : Int :=
  (levels.map (fun l => jsIndexOf LEVEL_ORDER (lower l))).foldr max (-1)

/- ===================== Host: subscribe handler ===================== -/

/-- The subscribe handler of the host (consumer role): builds the stored
subscription.  Note that `message.levels || [errors]` in JS defaults only
when the field is absent; an explicit empty array is truthy and kept. -/
def handleSubscribe (message : Message) : Subscription :=
  let levels := message.levels.getD ["errors"]
  let capabilities := message.capabilities.getD []
  let llm_filter_raw := lower (jsOrStr message.llm_filter "off")
  let llm_filter := if FILTER_LEVELS.contains llm_filter_raw then llm_filter_raw else "off"
  Subscription.mk levels capabilities llm_filter

/- ===================== Host: connection message handler ===================== -/

/-- Per-connection state of the ws message handler closure. -/
structure ConnState where
  isAuthenticated : Bool
  role : Option String
  clientId : Option String
deriving DecidableEq, Repr

/-- Replies the connection handler can send on the same socket. -/
inductive HostReply where
  | authSuccess (role clientId : String)
  | pong
deriving DecidableEq, Repr

/-- Observable effects of processing one inbound frame. -/
inductive HostAction where
  | send (r : HostReply)
  | close (code : Nat) (reason : String)
  | addBridge
  | addConsumer
  | dispatch (m : Message)
deriving DecidableEq, Repr

/-- An inbound ws frame: either a parsed JSON message, or a frame whose
processing throws (for example invalid JSON in JSON.parse). -/
inductive InFrame where
  | malformed
  | msg (m : Message)
deriving DecidableEq, Repr

/-- The ws message handler of the host: authentication phase, ping handling
and the surrounding try/catch.  Role-specific processing of authenticated
traffic is emitted as a dispatch action (it is modelled separately by the
routing, screenshot and control definitions). -/
def processFrame (secret : String) (now : Nat) (st : ConnState) (f : InFrame) :
    ConnState × List HostAction :=
  match f with
  | .malformed => (st, [.close 1011 "Internal error"])
  | .msg m =>
    if st.isAuthenticated = false then
      if m.type = some "auth" then
        if m.secret = some secret then
          let role := jsOrStr m.role "bridge"
          let clientId := jsOrStr m.clientId (role ++ "-" ++ toString now)
          let st := ConnState.mk true (some role) (some clientId)
          if role = "bridge" then
            (st, [.addBridge, .send (.authSuccess role clientId)])
          else if role = "consumer" then
            (st, [.addConsumer, .send (.authSuccess role clientId)])
          else
            (st, [.close 1008 ("Invalid role: " ++ role)])
        else (st, [.close 1008 "Invalid secret"])
      else (st, [.close 1008 "Authentication required"])
    else
      if m.type = some "ping" then (st, [.send .pong])
      else (st, [.dispatch m])

/- ===================== Host: screenshot handler ===================== -/

def SCREENSHOT_RATE_LIMIT_MS : Nat := 2000

/-- Outcome of the screenshot branch of the bridge message handler. -/
inductive ScreenshotOutcome where
  | notice (reason : String) (retryAfterMs : Option Nat)
  | forward (msg : Message) (count : Nat)
deriving DecidableEq, Repr

/-- Result of the screenshot handler: the new bridgeLastScreenshot map entry
for this bridge, the overload window, and what was sent. -/
structure ScreenshotResult where
  lastScreenshot : Option Nat
  window : WindowState
  outcome : ScreenshotOutcome
deriving DecidableEq, Repr

/-- The interestedConsumers collection loop of the screenshot handler. -/
def interestedConsumers (now : Nat) (msg : Message) (bcaps : Option BridgeMeta) :
    List Consumer → WindowState → List Consumer × WindowState
  | [], w => ([], w)
  | c :: cs, w =>
    let p := evalConsumer now msg bcaps c w
    let rest := interestedConsumers now msg bcaps cs p.2
    (if p.1 then c :: rest.1 else rest.1, rest.2)

/-- The screenshot branch of the bridge message handler (capability check,
rate limit, interested consumers, bridgeLastScreenshot.set, shape
validation, metadata defaults, forwarding), with Date.now() as `now` and the
map entries passed in and returned explicitly. -/
def screenshotHandler (now : Nat) (bridgeCaps : Option BridgeMeta)
    (lastScreenshot : Option Nat) (message : Message) (consumers : List Consumer)
    (w : WindowState) : ScreenshotResult :=
  let capsOk :=
    match bridgeCaps with
    | none => false
    | some b => b.capabilities.contains "screenshot"
  if capsOk = false then
    ScreenshotResult.mk lastScreenshot w (.notice "missing_capability" none)
  else
    let last := lastScreenshot.getD 0
    if last ≠ 0 ∧ now - last < SCREENSHOT_RATE_LIMIT_MS then
      let waitMs := SCREENSHOT_RATE_LIMIT_MS - (now - last)
      ScreenshotResult.mk lastScreenshot w (.notice "rate_limit" (some waitMs))
    else
      let p := interestedConsumers now message bridgeCaps consumers w
      if p.1.length = 0 then
        ScreenshotResult.mk lastScreenshot p.2 (.notice "no_consumers" none)
      else
        -- bridgeLastScreenshot.set(ws, now) happens here in the source,
        -- before the mime/data validation
        if jsOrStr message.mime "" = "" ∨ jsOrStr message.data "" = "" then
          ScreenshotResult.mk (some now) p.2 (.notice "invalid_format" none)
        else
          let message :=
            { message with
              timestamp := some (if message.timestamp.getD 0 = 0 then now
                                 else message.timestamp.getD 0),
              platform := some (jsOrStr message.platform "web"),
              level := some (jsOrStr message.level "info"),
              message := some (jsOrStr message.message
                ("Screenshot: " ++ jsOrStr message.route (jsOrStr message.url "unknown"))) }
          ScreenshotResult.mk (some now) p.2 (.forward message p.1.length)

/- ===================== Host: pending control correlation ===================== -/

/-- Broker bookkeeping for control correlation: the pendingControl map
(association list, most recent binding first) and the set of sessions whose
readyState is 1.  Sessions and control ids are abstracted to Nat. -/
structure BrokerState where
  pending : List (Nat × Nat)
  openSessions : List Nat
deriving DecidableEq, Repr

/-- Session lifecycle and control-plane happenings the correlation logic
reacts to. -/
inductive BrokerEv where
  | connect (s : Nat)
  | record (id : Nat) (replyTo : Nat)
  | result (id : Nat)
  | closeSession (s : Nat)
deriving DecidableEq, Repr

/-- Observable forwarding of a control_result to the recorded originator. -/
inductive BrokerOut where
  | deliverResult (id : Nat) (dest : Nat)
deriving DecidableEq, Repr

/-- JS Map.prototype.get over the association-list representation of the
pendingControl map (first binding for the key wins; brokerStep keeps at most
one binding per key). -/
def mapGet (id : Nat) : List (Nat × Nat) → Option Nat
  | [] => none
  | (k, v) :: rest => if k = id then some v else mapGet id rest

/-- One step of the control correlator:
connect adds a session; record is `pendingControl.set(id, replyTo)` after a
request was forwarded; result is an inbound control_result (forward and
delete only when the entry exists and its replyTo has readyState 1);
closeSession is the ws close handler (drop the session and every pending
entry whose replyTo is it). -/
def brokerStep (st : BrokerState) (ev : BrokerEv) : BrokerState × List BrokerOut :=
  match ev with
  | .connect s =>
    (BrokerState.mk st.pending (s :: st.openSessions), [])
  | .record id replyTo =>
    (BrokerState.mk ((id, replyTo) :: st.pending.filter (fun e => decide (e.1 ≠ id)))
      st.openSessions, [])
  | .result id =>
    match mapGet id st.pending with
    | some replyTo =>
      if replyTo ∈ st.openSessions then
        (BrokerState.mk (st.pending.filter (fun e => decide (e.1 ≠ id))) st.openSessions,
          [.deliverResult id replyTo])
      else (st, [])
    | none => (st, [])
  | .closeSession s =>
    (BrokerState.mk (st.pending.filter (fun e => decide (e.2 ≠ s)))
      (st.openSessions.filter (fun x => decide (x ≠ s))), [])

/-- Run of the correlator from a state over a list of events, collecting the
forwarded results in order. -/
def brokerRun (st : BrokerState) : List BrokerEv → BrokerState × List BrokerOut
  | [] => (st, [])
  | ev :: evs =>
    let p := brokerStep st ev
    let q := brokerRun p.1 evs
    (q.1, p.2 ++ q.2)

/-- The broker starts with no sessions and an empty pendingControl map. -/
def brokerInit : BrokerState := BrokerState.mk [] []

/-- How many control_result frames were forwarded for a given id. -/
def countDeliver (id : Nat) (outs : List BrokerOut) : Nat :=
  (outs.filter (fun o => match o with | .deliverResult i _ => decide (i = id))).length

/-- How many times a pending entry was recorded for a given id. -/
def countRecords (id : Nat) (evs : List BrokerEv) : Nat :=
  (evs.filter (fun e => match e with
    | .record i _ => decide (i = id)
    | _ => false)).length

/-- 1 when the pendingControl map holds an entry for the id, else 0. -/
def pendingInd (id : Nat) (st : BrokerState) : Nat :=
  match mapGet id st.pending with
  | some _ => 1
  | none => 0

/- ===================== Bridge client (BridgeWebSocket) ===================== -/

def PROTOCOL_VERSION : Nat := 2
def HEARTBEAT_INTERVAL_MS : Nat := 15000
def HEARTBEAT_TIMEOUT_MS : Nat := 30000
def RECONNECT_INITIAL_DELAY_MS : Nat := 1000
def RECONNECT_MAX_DELAY_MS : Nat := 30000
def BUFFER_LIMIT : Nat := 200

/-- An application event the client sends (the fields the buffer and the
drop notice use). -/
structure CEvent where
  type : String
  level : String
  message : String
deriving DecidableEq, Repr

/-- A frame the client writes to its socket. -/
inductive Frame where
  | auth (secret role : String)
  | hello (capabilities : List String) (protocol : Nat)
  | event (e : CEvent)
  | pong
  | ping
deriving DecidableEq, Repr

/-- The mutable fields of BridgeWebSocket that the buffer, handshake and
reconnect logic read and write.  wsOpen models `ws.readyState === 1`. -/
structure ClientState where
  wsOpen : Bool
  helloSent : Bool
  reconnectDelay : Nat
  buffer : List CEvent
  dropped : Nat
  bufferLimit : Nat
deriving DecidableEq, Repr

/-- A fresh BridgeWebSocket: no socket yet, hello not sent, initial
reconnect delay, empty buffer. -/
def clientInit : ClientState :=
  ClientState.mk false false RECONNECT_INITIAL_DELAY_MS [] 0 BUFFER_LIMIT

/-- BridgeWebSocket.enqueue: drop the oldest element when at the limit
(counting it), then append. -/
def enqueue (st : ClientState) (ev : CEvent) : ClientState :=
  let st :=
    if st.bufferLimit ≤ st.buffer.length then
      { st with buffer := st.buffer.drop 1, dropped := st.dropped + 1 }
    else st
  { st with buffer := st.buffer ++ [ev] }

/-- BridgeWebSocket.flushBuffer: when the socket is open, drain the buffer
in FIFO order and, when dropped is positive, send one info event with the
literal drop-count message and reset the counter. -/
def flushBuffer (st : ClientState) : ClientState × List Frame :=
  if st.wsOpen then
    let evOut := st.buffer.map Frame.event
    if 0 < st.dropped then
      ({ st with buffer := [], dropped := 0 },
        evOut ++ [Frame.event (CEvent.mk "info" "info"
          ("bridge buffered drop count=" ++ toString st.dropped))])
    else ({ st with buffer := [] }, evOut)
  else (st, [])

/-- BridgeWebSocket.sendHello: no frame when hello was already sent;
otherwise emit the hello frame (sendRaw writes only on an open socket) and
mark helloSent. -/
def sendHello (st : ClientState) (caps : List String) : ClientState × List Frame :=
  if st.helloSent then (st, [])
  else ({ st with helloSent := true },
    if st.wsOpen then [Frame.hello caps PROTOCOL_VERSION] else [])

/-- The onopen handler of BridgeWebSocket.connect: the socket has become
open; reset the reconnect delay and the hello flag, start the heartbeat (the
first ping fires only after the interval, so no frame here), send auth via
sendRaw, then sendHello, then flushBuffer. -/
def onOpen (st : ClientState) (secret : String) (caps : List String) :
    ClientState × List Frame :=
  let st := { st with wsOpen := true, reconnectDelay := 1000, helloSent := false }
  let authOut : List Frame :=
    if st.wsOpen then [Frame.auth secret "bridge"] else []
  let p := sendHello st caps
  let q := flushBuffer p.1
  (q.1, authOut ++ p.2 ++ q.2)

/-- The horizontal-ellipsis-plus-marker suffix appended by the truncation. -/
def TRUNCATED_SUFFIX : String := "…[truncated]"

/-- BridgeWebSocket.validateAndRedact restricted to the fields of CEvent:
reject an empty type, truncate messages longer than 4000 characters.  (The
args and breadcrumbs redaction operates on fields CEvent does not carry.) -/
def validateAndRedact (ev : CEvent) : Option CEvent :=
  if ev.type = "" then none
  else if 4000 < ev.message.length then
    some { ev with message := String.mk (ev.message.toList.take 4000) ++ TRUNCATED_SUFFIX }
  else some ev

/-- BridgeWebSocket.send: validate, then write immediately on an open
socket, otherwise enqueue. -/
def clientSend (st : ClientState) (ev : CEvent) : ClientState × List Frame :=
  match validateAndRedact ev with
  | none => (st, [])
  | some safe =>
    if st.wsOpen then (st, [Frame.event safe])
    else (enqueue st safe, [])

/-- Server frames the client read loop reacts to (handleIncoming switches on
msg.type; every other type, including auth_success, falls through). -/
inductive SMsg where
  | authSuccess
  | ping
  | pong
deriving DecidableEq, Repr

/-- BridgeWebSocket.handleIncoming: pong resets the heartbeat timeout (a
timer effect with no observable field change here), ping is answered with
pong via sendRaw, and any other message type, auth_success included, is
ignored. -/
def handleIncoming (st : ClientState) (m : SMsg) : ClientState × List Frame :=
  match m with
  | .pong => (st, [])
  | .ping => (st, if st.wsOpen then [Frame.pong] else [])
  | .authSuccess => (st, [])

/-- Externally visible happenings in a run of the client. -/
inductive CEv where
  | opened
  | received (m : SMsg)
deriving DecidableEq, Repr

/-- One step of the client state machine. -/
def clientStep (secret : String) (caps : List String) (st : ClientState) :
    CEv → ClientState × List Frame
  | .opened => onOpen st secret caps
  | .received m => handleIncoming st m

/-- A run of the client over a list of happenings, collecting the frames it
writes in order. -/
def clientRun (secret : String) (caps : List String) (st : ClientState) :
    List CEv → ClientState × List Frame
  | [] => (st, [])
  | ev :: evs =>
    let p := clientStep secret caps st ev
    let q := clientRun secret caps p.1 evs
    (q.1, p.2 ++ q.2)

/-- The sleep duration scheduleReconnect passes to setTimeout: exactly the
current reconnectDelay field. -/
def scheduleReconnectSleep (st : ClientState) : Nat := st.reconnectDelay

/-- The delay update in the connect failure path of scheduleReconnect:
double, capped at RECONNECT_MAX_DELAY_MS. -/
def nextReconnectDelay (d : Nat) : Nat := min (d * 2) RECONNECT_MAX_DELAY_MS

/-- The base reconnect delay after n consecutive failed attempts starting
from a fresh connection. -/
def reconnectDelayAfterFailures : Nat → Nat
  | 0 => RECONNECT_INITIAL_DELAY_MS
  | n + 1 => nextReconnectDelay (reconnectDelayAfterFailures n)

/-- Follows the wording of the reconnect claim, for comparison with
scheduleReconnectSleep: the slept delay is the base multiplied by a jitter
factor drawn from the closed interval from 1 to 3/2. -/
def specJitteredReconnectSleep (base : Nat) (jitter : ℚ) : ℚ := base * jitter

/- ===================== Concrete inputs of the claimed scenarios ===================== -/

/-- A console event of the level-hierarchy test scenario. -/
def consoleEvent (l : String) : Message := { type := some "console", level := some l }

/-- Consumer A of the scenario: connected, never sent subscribe. -/
def consumerDefault : Consumer := Consumer.mk 1 none

/-- Consumer B of the scenario: subscribed to levels warn and info. -/
def consumerWarnInfo : Consumer :=
  Consumer.mk 1 (some (Subscription.mk ["warn", "info"] [] "off"))

/-- Consumer C of the scenario: subscribed to level trace. -/
def consumerTrace : Consumer := Consumer.mk 1 (some (Subscription.mk ["trace"] [] "off"))

/- ============================================================================
   Theorems
   ============================================================================ -/

/-- Any member of an Int list is bounded by its right fold with max. -/
theorem le_foldr_max (x : Int) (init : Int) :
    ∀ xs : List Int, x ∈ xs → x ≤ xs.foldr max init := by
  intro xs
  induction xs with
  | nil => intro h; cases h
  | cons a l ih =>
    intro h
    rcases List.mem_cons.mp h with h | h
    · subst h; exact le_max_left _ _
    · exact le_trans (ih h) (le_max_right _ _)

/-- A passing level check bounds the event tier index by the maximum index
over the subscribed levels. -/
theorem subscriptionIncludesLevel_le (ls : List String) (e : String)
    (h : subscriptionIncludesLevel (some ls) e = true) :
    jsIndexOf LEVEL_ORDER (getSubscriptionLevelForLogLevel e) ≤ maxLevelIndex ls := by
  unfold subscriptionIncludesLevel at h
  simp only [Option.getD] at h
  rcases List.any_eq_true.mp h with ⟨s, hs, hdec⟩
  rcases List.mem_map.mp hs with ⟨l, hl, rfl⟩
  have hle : jsIndexOf LEVEL_ORDER (getSubscriptionLevelForLogLevel e)
      ≤ jsIndexOf LEVEL_ORDER (lower l) := of_decide_eq_true hdec
  refine le_trans hle (le_foldr_max _ _ _ ?_)
  exact List.mem_map.mpr ⟨l, hl, rfl⟩

/-- A positive routing decision passes the level gate. -/
theorem shouldRoute_level_sub (now : Nat) (w : WindowState) (sub : Option Subscription)
    (msg : Message) (bcaps : Option BridgeMeta)
    (h : (shouldRouteToConsumer now w sub msg bcaps).1 = true) :
    subscriptionIncludesLevel (some (consumerLevels sub)) (jsOrStr msg.level "info") = true := by
  cases hb : subscriptionIncludesLevel (some (consumerLevels sub)) (jsOrStr msg.level "info")
  · exfalso
    simp only [shouldRouteToConsumer, hb] at h
    split at h <;> simp_all
  · rfl

/-- C1: the broker delivers an event to a consumer only if the LEVEL_ORDER
index of the mapped event level is at most the maximum LEVEL_ORDER index
over the subscribed levels of the consumer (default errors only); and in the
level-hierarchy scenario with events of levels error, warn, info and debug,
the default consumer receives 1, the warn+info consumer 3 and the trace
consumer 4. -/
theorem c1_level_gate :
    (∀ (now : Nat) (w : WindowState) (c : Consumer) (msg : Message)
        (bcaps : Option BridgeMeta),
      (evalConsumer now msg bcaps c w).1 = true →
      jsIndexOf LEVEL_ORDER (getSubscriptionLevelForLogLevel (jsOrStr msg.level "info"))
        ≤ maxLevelIndex (consumerLevels c.sub))
    ∧ routeBatch 0 none [consumerDefault, consumerWarnInfo, consumerTrace]
        [consoleEvent "error", consoleEvent "warn", consoleEvent "info", consoleEvent "debug"]
        (WindowState.mk 0 0) [0, 0, 0] = [1, 3, 4] := by
  constructor
  · intro now w c msg bcaps h
    unfold evalConsumer at h
    split at h
    · exact subscriptionIncludesLevel_le _ _ (shouldRoute_level_sub _ _ _ _ _ h)
    · simp at h
  · decide

/-- C1 witness: the level gate instantiated at the default consumer and an
error-level console event. -/
theorem c1_level_gate_witness :
    jsIndexOf LEVEL_ORDER (getSubscriptionLevelForLogLevel
        (jsOrStr (consoleEvent "error").level "info"))
      ≤ maxLevelIndex (consumerLevels consumerDefault.sub) :=
  c1_level_gate.1 0 (WindowState.mk 0 0) consumerDefault (consoleEvent "error") none
    (by decide)

/-- With no bridgeCapabilities entry (no hello), the bridge-side capability
check fails for every capability. -/
theorem bridgeHasCapability_none (c : String) : bridgeHasCapability none c = false := by
  unfold bridgeHasCapability
  by_cases hc : lower c = ""
  · simp [hc]
  · simp [hc]

/-- C4 amended: when the originating bridge has not sent hello, the
bridge-side capability check runs against an absent capability record and
fails, so events of the gated types are never routed to any consumer (the
check is not skipped). -/
theorem c4_amended :
    ∀ (now : Nat) (w : WindowState) (sub : Option Subscription) (msg : Message),
      (lower (jsOrStr msg.type "") = "pageview" ∨ lower (jsOrStr msg.type "") = "screenshot"
        ∨ lower (jsOrStr msg.type "") = "control" ∨ lower (jsOrStr msg.type "") = "network"
        ∨ lower (jsOrStr msg.type "") = "navigation") →
      (shouldRouteToConsumer now w sub msg none).1 = false := by
  intro now w sub msg h
  rcases h with h | h | h | h | h <;>
    simp [shouldRouteToConsumer, bridgeHasCapability_none, h]

/-- C4 counterexample: a pageview event of level info from a bridge that
never sent hello is not delivered to a subscribed consumer even though every
consumer-side gate (level, requested capabilities, llm filter) passes, so
the bridge-side check is not skipped. -/
theorem c4_counterexample :
    (shouldRouteToConsumer 0 (WindowState.mk 0 0)
        (some (Subscription.mk ["info"] [] "off"))
        { type := some "pageview", level := some "info" } none).1 = false
    ∧ subscriptionIncludesLevel (some ["info"]) "info" = true
    ∧ consumerWantsCapability (some []) "pageview" = true
    ∧ (filterEventForConsumer 0 (WindowState.mk 0 0)
        { type := some "pageview", level := some "info" }
        (Subscription.mk ["info"] [] "off")).1 = true := by decide

/-- C4 witness: the amended theorem instantiated at a network event from a
hello-less bridge. -/
theorem c4_amended_witness :
    (shouldRouteToConsumer 0 (WindowState.mk 0 0) none
      { type := some "network" } none).1 = false :=
  c4_amended 0 (WindowState.mk 0 0) none { type := some "network" } (by decide)

/-- C9 counterexample: a subscribe message with an explicitly empty levels
list is stored with empty levels (not defaulted to errors), and that
consumer then does not receive an error-level event. -/
theorem c9_counterexample :
    (handleSubscribe { levels := some [] }).levels = []
    ∧ (shouldRouteToConsumer 0 (WindowState.mk 0 0)
        (some (handleSubscribe { levels := some [] }))
        { type := some "console", level := some "error" } none).1 = false := by decide

/-- C9 amended: only an absent levels field defaults to errors; an explicit
empty list is stored as given, and an empty subscribed-levels list matches
no event level, silencing the consumer entirely. -/
theorem c9_amended :
    (∀ msg : Message, msg.levels = none → (handleSubscribe msg).levels = ["errors"])
    ∧ (∀ msg : Message, msg.levels = some [] → (handleSubscribe msg).levels = [])
    ∧ (∀ lvl : String, subscriptionIncludesLevel (some []) lvl = false) := by
  refine ⟨?_, ?_, ?_⟩
  · intro msg h; simp [handleSubscribe, h]
  · intro msg h; simp [handleSubscribe, h]
  · intro lvl; rfl

/-- C9 witness: the amended defaulting behaviour at concrete subscribe
messages and the error level. -/
theorem c9_amended_witness :
    (handleSubscribe { levels := none }).levels = ["errors"]
    ∧ (handleSubscribe { levels := some [] }).levels = []
    ∧ subscriptionIncludesLevel (some []) "error" = false :=
  ⟨c9_amended.1 { levels := none } rfl, c9_amended.2.1 { levels := some [] } rfl,
    c9_amended.2.2 "error"⟩

/-- C5 amended: an inbound frame whose processing fails (for example invalid
JSON) closes the connection with code 1011 Internal error, in the
authentication phase and after it alike; the frame is not silently ignored. -/
theorem c5_amended :
    ∀ (secret : String) (now : Nat) (st : ConnState),
      processFrame secret now st InFrame.malformed
        = (st, [HostAction.close 1011 "Internal error"]) := by
  intro secret now st
  rfl

/-- C5 counterexample: on an authenticated session a malformed frame makes
the handler close the socket with 1011 Internal error, contradicting the
claim that the connection survives the bad frame. -/
theorem c5_counterexample :
    (ConnState.mk true (some "bridge") (some "b-1")).isAuthenticated = true
    ∧ processFrame "sec" 7 (ConnState.mk true (some "bridge") (some "b-1")) InFrame.malformed
        = (ConnState.mk true (some "bridge") (some "b-1"),
           [HostAction.close 1011 "Internal error"]) := by decide

/-- C10: an auth frame with the correct secret and no role field is not
rejected; the session is registered as a bridge and answered with
auth_success carrying role bridge; no close action is emitted when the
effective role is bridge or consumer; and a close happens exactly when an
explicit non-empty role outside bridge and consumer was sent, with code 1008
and an Invalid role reason. -/
theorem c10_auth_role_default :
    (∀ (secret : String) (now : Nat) (st : ConnState) (m : Message),
      st.isAuthenticated = false → m.type = some "auth" → m.secret = some secret →
      m.role = none →
      processFrame secret now st (.msg m)
        = (ConnState.mk true (some "bridge")
             (some (jsOrStr m.clientId ("bridge-" ++ toString now))),
           [.addBridge, .send (.authSuccess "bridge"
             (jsOrStr m.clientId ("bridge-" ++ toString now)))]))
    ∧ (∀ (secret : String) (now : Nat) (st : ConnState) (m : Message),
      st.isAuthenticated = false → m.type = some "auth" → m.secret = some secret →
      (jsOrStr m.role "bridge" = "bridge" ∨ jsOrStr m.role "bridge" = "consumer") →
      ∀ code reason, HostAction.close code reason ∉ (processFrame secret now st (.msg m)).2)
    ∧ (∀ (secret : String) (now : Nat) (st : ConnState) (m : Message),
      st.isAuthenticated = false → m.type = some "auth" → m.secret = some secret →
      jsOrStr m.role "bridge" ≠ "bridge" → jsOrStr m.role "bridge" ≠ "consumer" →
      (processFrame secret now st (.msg m)).2
          = [HostAction.close 1008 ("Invalid role: " ++ jsOrStr m.role "bridge")]
        ∧ ∃ r, m.role = some r ∧ r ≠ "" ∧ jsOrStr m.role "bridge" = r) := by
  refine ⟨?_, ?_, ?_⟩
  · intro secret now st m h1 h2 h3 h4
    simp [processFrame, h1, h2, h3, h4, jsOrStr]
  · intro secret now st m h1 h2 h3 hrole code reason
    rcases hrole with hr | hr <;> simp [processFrame, h1, h2, h3, hr]
  · intro secret now st m h1 h2 h3 hr1 hr2
    refine ⟨by simp [processFrame, h1, h2, h3, hr1, hr2], ?_⟩
    cases hm : m.role with
    | none => exact absurd (by simp [jsOrStr, hm]) hr1
    | some r =>
      by_cases hre : r = ""
      · exact absurd (by simp [jsOrStr, hm, hre]) hr1
      · exact ⟨r, rfl, hre, by simp [jsOrStr, hre]⟩

/-- C10 witness: an auth frame with correct secret and no role registers a
bridge named from the timestamp and is answered with auth_success. -/
theorem c10_witness :
    processFrame "s" 7 (ConnState.mk false none none)
        (.msg { type := some "auth", secret := some "s" })
      = (ConnState.mk true (some "bridge") (some "bridge-7"),
         [.addBridge, .send (.authSuccess "bridge" "bridge-7")]) :=
  c10_auth_role_default.1 "s" 7 (ConnState.mk false none none)
    { type := some "auth", secret := some "s" } rfl rfl rfl rfl

/-- The screenshot handler ends in exactly one of five shapes: three
rejections that keep the rate-limit clock, and the invalid_format rejection
and the forward, both of which set the clock to now. -/
theorem screenshotHandler_cases (now : Nat) (bcaps : Option BridgeMeta) (last : Option Nat)
    (msg : Message) (consumers : List Consumer) (w : WindowState) :
    (screenshotHandler now bcaps last msg consumers w
        = ScreenshotResult.mk last w (.notice "missing_capability" none))
    ∨ (∃ wait, screenshotHandler now bcaps last msg consumers w
        = ScreenshotResult.mk last w (.notice "rate_limit" (some wait)))
    ∨ (∃ w2, screenshotHandler now bcaps last msg consumers w
        = ScreenshotResult.mk last w2 (.notice "no_consumers" none))
    ∨ (∃ w2, screenshotHandler now bcaps last msg consumers w
        = ScreenshotResult.mk (some now) w2 (.notice "invalid_format" none))
    ∨ (∃ fm n w2, screenshotHandler now bcaps last msg consumers w
        = ScreenshotResult.mk (some now) w2 (.forward fm n)) := by
  unfold screenshotHandler
  cases bcaps with
  | none => exact Or.inl rfl
  | some b =>
    by_cases hc : b.capabilities.contains "screenshot" = false
    · simp only [hc, if_pos]
      exact Or.inl trivial
    · have hc2 : (b.capabilities.contains "screenshot" = false) = False :=
        eq_false hc
      simp only [hc2, if_false]
      by_cases hr : last.getD 0 ≠ 0 ∧ now - last.getD 0 < SCREENSHOT_RATE_LIMIT_MS
      · simp only [if_pos hr]
        exact Or.inr (Or.inl ⟨_, rfl⟩)
      · simp only [if_neg hr]
        by_cases hn : (interestedConsumers now msg (some b) consumers w).1.length = 0
        · simp only [if_pos hn]
          exact Or.inr (Or.inr (Or.inl ⟨_, rfl⟩))
        · simp only [if_neg hn]
          by_cases hf : jsOrStr msg.mime "" = "" ∨ jsOrStr msg.data "" = ""
          · simp only [if_pos hf]
            exact Or.inr (Or.inr (Or.inr (Or.inl ⟨_, rfl⟩)))
          · simp only [if_neg hf]
            exact Or.inr (Or.inr (Or.inr (Or.inr ⟨_, _, _, rfl⟩)))

/-- C6 amended: the per-bridge last-screenshot timestamp is updated exactly
when the screenshot passes the capability, rate-limit and
interested-consumer checks, which includes the case where it is then
rejected with invalid_format; rejections for missing_capability, rate_limit
and no_consumers leave the clock unchanged. -/
theorem c6_amended :
    ∀ (now : Nat) (bcaps : Option BridgeMeta) (last : Option Nat) (msg : Message)
      (consumers : List Consumer) (w : WindowState),
      (∀ r, (screenshotHandler now bcaps last msg consumers w).outcome
            = .notice "missing_capability" r →
        (screenshotHandler now bcaps last msg consumers w).lastScreenshot = last)
      ∧ (∀ r, (screenshotHandler now bcaps last msg consumers w).outcome
            = .notice "rate_limit" r →
        (screenshotHandler now bcaps last msg consumers w).lastScreenshot = last)
      ∧ (∀ r, (screenshotHandler now bcaps last msg consumers w).outcome
            = .notice "no_consumers" r →
        (screenshotHandler now bcaps last msg consumers w).lastScreenshot = last)
      ∧ (∀ r, (screenshotHandler now bcaps last msg consumers w).outcome
            = .notice "invalid_format" r →
        (screenshotHandler now bcaps last msg consumers w).lastScreenshot = some now)
      ∧ (∀ fm n, (screenshotHandler now bcaps last msg consumers w).outcome
            = .forward fm n →
        (screenshotHandler now bcaps last msg consumers w).lastScreenshot = some now) := by
  intro now bcaps last msg consumers w
  rcases screenshotHandler_cases now bcaps last msg consumers w with
    h | ⟨wait, h⟩ | ⟨w2, h⟩ | ⟨w2, h⟩ | ⟨fm0, n0, w2, h⟩ <;>
    rw [h] <;>
    exact ⟨fun r hh => by simp_all, fun r hh => by simp_all, fun r hh => by simp_all,
      fun r hh => by simp_all, fun fm n hh => by simp_all⟩

/-- C6 counterexample: a screenshot without mime from a capable bridge with
an interested consumer is rejected with invalid_format, yet the
last-screenshot clock changes from none to the current time. -/
theorem c6_counterexample :
    screenshotHandler 5000 (some { capabilities := ["screenshot"] }) none
        { type := some "screenshot", level := some "info", data := some "aGVsbG8=" }
        [Consumer.mk 1 (some (Subscription.mk ["info"] ["screenshot"] "off"))]
        (WindowState.mk 5000 0)
      = ScreenshotResult.mk (some 5000) (WindowState.mk 5000 1)
          (.notice "invalid_format" none)
    ∧ some 5000 ≠ (none : Option Nat) := by decide

/-- C6 witness: the amended clock-update rule instantiated at the concrete
invalid_format rejection. -/
theorem c6_amended_witness :
    (screenshotHandler 5000 (some { capabilities := ["screenshot"] }) none
        { type := some "screenshot", level := some "info", data := some "aGVsbG8=" }
        [Consumer.mk 1 (some (Subscription.mk ["info"] ["screenshot"] "off"))]
        (WindowState.mk 5000 0)).lastScreenshot = some 5000 :=
  (c6_amended 5000 (some { capabilities := ["screenshot"] }) none
      { type := some "screenshot", level := some "info", data := some "aGVsbG8=" }
      [Consumer.mk 1 (some (Subscription.mk ["info"] ["screenshot"] "off"))]
      (WindowState.mk 5000 0)).2.2.2.1 none (by decide)

/-- enqueue preserves the buffer bound for a positive limit. -/
theorem enqueue_length_le (st : ClientState) (ev : CEvent)
    (hcap : 0 < st.bufferLimit) (hlen : st.buffer.length ≤ st.bufferLimit) :
    (enqueue st ev).buffer.length ≤ st.bufferLimit := by
  unfold enqueue
  by_cases h : st.bufferLimit ≤ st.buffer.length
  · have hEq : st.buffer.length = st.bufferLimit := le_antisymm hlen h
    simp [h, List.length_drop, hEq]
    omega
  · simp [h]
    omega

/-- C3: the outbound buffer never exceeds bufferLimit (an enqueue at
capacity drops the oldest element and counts it), a flush on an open socket
drains the buffer in FIFO order followed by exactly one info event carrying
the drop count and resets the counter, and in the concrete scenario with
bufferLimit 3 and five events the host receives auth, hello, m2, m3, m4 and
the notice with count 2. -/
theorem c3_buffer :
    (∀ (st : ClientState) (ev : CEvent), 0 < st.bufferLimit →
      st.buffer.length ≤ st.bufferLimit →
      (enqueue st ev).buffer.length ≤ st.bufferLimit)
    ∧ (∀ (st : ClientState) (ev : CEvent), st.buffer.length = st.bufferLimit →
      (enqueue st ev).buffer = st.buffer.drop 1 ++ [ev]
        ∧ (enqueue st ev).dropped = st.dropped + 1)
    ∧ (∀ st : ClientState, st.wsOpen = true → 0 < st.dropped →
      (flushBuffer st).2
          = st.buffer.map Frame.event
            ++ [Frame.event (CEvent.mk "info" "info"
                 ("bridge buffered drop count=" ++ toString st.dropped))]
        ∧ (flushBuffer st).1.buffer = [] ∧ (flushBuffer st).1.dropped = 0)
    ∧ ((clientRun "s" ["console"]
        ([CEvent.mk "console" "info" "m0", CEvent.mk "console" "info" "m1",
          CEvent.mk "console" "info" "m2", CEvent.mk "console" "info" "m3",
          CEvent.mk "console" "info" "m4"].foldl
            (fun s e => (clientSend s e).1) { clientInit with bufferLimit := 3 })
        [CEv.opened]).2
      = [Frame.auth "s" "bridge", Frame.hello ["console"] 2,
         Frame.event (CEvent.mk "console" "info" "m2"),
         Frame.event (CEvent.mk "console" "info" "m3"),
         Frame.event (CEvent.mk "console" "info" "m4"),
         Frame.event (CEvent.mk "info" "info" "bridge buffered drop count=2")]) := by
  refine ⟨enqueue_length_le, ?_, ?_, ?_⟩
  · intro st ev hlen
    unfold enqueue
    have h : st.bufferLimit ≤ st.buffer.length := le_of_eq hlen.symm
    simp [h]
  · intro st hopen hdrop
    unfold flushBuffer
    simp [hopen, hdrop]
  · decide

/-- C3 witness: the buffer bound instantiated at a full three-element
buffer receiving one more event. -/
theorem c3_buffer_witness :
    (enqueue (ClientState.mk false false 1000
        [CEvent.mk "console" "info" "a", CEvent.mk "console" "info" "b",
         CEvent.mk "console" "info" "c"] 0 3)
      (CEvent.mk "console" "info" "d")).buffer.length ≤ 3 :=
  c3_buffer.1 (ClientState.mk false false 1000
      [CEvent.mk "console" "info" "a", CEvent.mk "console" "info" "b",
       CEvent.mk "console" "info" "c"] 0 3)
    (CEvent.mk "console" "info" "d") (by decide) (by decide)

/-- C7 counterexample: in the run consisting only of the socket-open
happening, the client emits a hello frame although no auth_success frame
was ever received. -/
theorem c7_counterexample :
    Frame.hello ["console"] PROTOCOL_VERSION
        ∈ (clientRun "s" ["console"] clientInit [CEv.opened]).2
    ∧ (∀ e ∈ [CEv.opened], e ≠ CEv.received SMsg.authSuccess) := by decide

/-- C7 amended: the socket-open handler emits auth immediately followed by
hello without waiting for any inbound frame, and receiving auth_success is
a no-op for the client. -/
theorem c7_amended :
    (∀ (st : ClientState) (secret : String) (caps : List String),
      (onOpen st secret caps).2.take 2
        = [Frame.auth secret "bridge", Frame.hello caps PROTOCOL_VERSION])
    ∧ (∀ st : ClientState, handleIncoming st SMsg.authSuccess = (st, [])) := by
  constructor
  · intro st secret caps
    simp [onOpen, sendHello, flushBuffer]
  · intro st
    rfl

/-- C8 counterexample: the jitter factor 3/2 lies in the claimed interval,
and the claimed jittered sleep of 1500 ms differs from the 1000 ms the
code actually passes to setTimeout for the initial base delay. -/
theorem c8_counterexample :
    ((3 : ℚ)/2) ∈ Set.Icc (1 : ℚ) (3/2)
    ∧ specJitteredReconnectSleep (scheduleReconnectSleep clientInit) (3/2) = 1500
    ∧ ((scheduleReconnectSleep clientInit : Nat) : ℚ) = 1000
    ∧ specJitteredReconnectSleep (scheduleReconnectSleep clientInit) (3/2)
        ≠ ((scheduleReconnectSleep clientInit : Nat) : ℚ) := by
  refine ⟨?_, ?_, ?_, ?_⟩
  · constructor <;> norm_num
  · norm_num [specJitteredReconnectSleep, scheduleReconnectSleep, clientInit,
      RECONNECT_INITIAL_DELAY_MS]
  · norm_num [scheduleReconnectSleep, clientInit, RECONNECT_INITIAL_DELAY_MS]
  · norm_num [specJitteredReconnectSleep, scheduleReconnectSleep, clientInit,
      RECONNECT_INITIAL_DELAY_MS]

/-- Every reconnect base delay is capped by RECONNECT_MAX_DELAY_MS. -/
theorem reconnectDelay_le_max (n : Nat) :
    reconnectDelayAfterFailures n ≤ RECONNECT_MAX_DELAY_MS := by
  cases n with
  | zero => decide
  | succ m =>
    unfold reconnectDelayAfterFailures nextReconnectDelay
    exact min_le_right _ _

/-- C8 amended: the base delay starts at 1000 ms, doubles per failed
attempt and is capped at 30000 ms, giving 1000, 2000, 4000, 8000, 16000,
30000, 30000, and the delay actually slept equals the base exactly; no
jitter factor is applied. -/
theorem c8_amended :
    ((List.range 7).map reconnectDelayAfterFailures
        = [1000, 2000, 4000, 8000, 16000, 30000, 30000])
    ∧ (∀ n, reconnectDelayAfterFailures n ≤ RECONNECT_MAX_DELAY_MS)
    ∧ (∀ n, 5 ≤ n → reconnectDelayAfterFailures n = RECONNECT_MAX_DELAY_MS)
    ∧ (∀ st : ClientState, scheduleReconnectSleep st = st.reconnectDelay) := by
  refine ⟨by decide, reconnectDelay_le_max, ?_, fun st => rfl⟩
  intro n hn
  induction n with
  | zero => omega
  | succ m ih =>
    by_cases hm : 5 ≤ m
    · have := ih hm
      unfold reconnectDelayAfterFailures nextReconnectDelay
      rw [this]
      decide
    · have hm5 : m = 4 := by omega
      subst hm5
      decide

/-- C8 witness: from the sixth failure on the base delay sits at the cap. -/
theorem c8_amended_witness :
    reconnectDelayAfterFailures 6 = RECONNECT_MAX_DELAY_MS :=
  c8_amended.2.2.1 6 (by decide)

/-- Deleting a different key leaves a map lookup unchanged. -/
theorem mapGet_filter_key_ne (id idr : Nat) (hne : id ≠ idr) (l : List (Nat × Nat)) :
    mapGet id (l.filter (fun e => decide (e.1 ≠ idr))) = mapGet id l := by
  induction l with
  | nil => rfl
  | cons e l ih =>
    obtain ⟨a, b⟩ := e
    rw [List.filter_cons]
    by_cases ha : a = idr
    · have hc : decide ((a, b).1 ≠ idr) = false := by simp [ha]
      have hai : a ≠ id := fun hh => hne (ha ▸ hh.symm)
      simp only [hc, Bool.false_eq_true, if_false]
      rw [ih]
      simp only [mapGet, if_neg hai]
    · have hc : decide ((a, b).1 ≠ idr) = true := by simp [ha]
      simp only [hc, if_true]
      by_cases hai : a = id
      · simp only [mapGet, if_pos hai]
      · simp only [mapGet, if_neg hai]
        exact ih

/-- Deleting a key makes its lookup come back empty. -/
theorem mapGet_filter_key_self (id : Nat) (l : List (Nat × Nat)) :
    mapGet id (l.filter (fun e => decide (e.1 ≠ id))) = none := by
  induction l with
  | nil => rfl
  | cons e l ih =>
    obtain ⟨a, b⟩ := e
    rw [List.filter_cons]
    by_cases ha : a = id
    · have hc : decide ((a, b).1 ≠ id) = false := by simp [ha]
      simp only [hc, Bool.false_eq_true, if_false]
      exact ih
    · have hc : decide ((a, b).1 ≠ id) = true := by simp [ha]
      simp only [hc, if_true, mapGet, if_neg ha]
      exact ih

/-- Filtering cannot make an absent key appear. -/
theorem mapGet_filter_none (p : Nat × Nat → Bool) (id : Nat) (l : List (Nat × Nat))
    (h : mapGet id l = none) : mapGet id (l.filter p) = none := by
  induction l with
  | nil => rfl
  | cons e l ih =>
    obtain ⟨a, b⟩ := e
    by_cases ha : a = id
    · simp [mapGet, ha] at h
    · have h2 : mapGet id l = none := by simpa [mapGet, ha] using h
      rw [List.filter_cons]
      by_cases hp : p (a, b)
      · simp only [hp, if_true, mapGet, if_neg ha]
        exact ih h2
      · have hp2 : p (a, b) = false := by simpa using hp
        simp only [hp2, Bool.false_eq_true, if_false]
        exact ih h2

/-- The pending indicator is 0 or 1. -/
theorem pendingInd_le_one (id : Nat) (st : BrokerState) : pendingInd id st ≤ 1 := by
  unfold pendingInd
  split <;> omega

/-- One correlator step: forwarded results plus the surviving pending
indicator are bounded by the prior indicator plus new recordings. -/
theorem brokerStep_bound (st : BrokerState) (ev : BrokerEv) (id : Nat) :
    countDeliver id (brokerStep st ev).2 + pendingInd id (brokerStep st ev).1
      ≤ pendingInd id st + countRecords id [ev] := by
  cases ev with
  | connect s =>
    simp [brokerStep, countDeliver, countRecords, pendingInd]
  | record i r =>
    have h3 : countDeliver id (brokerStep st (.record i r)).2 = 0 := by
      simp [brokerStep, countDeliver]
    by_cases hi : i = id
    · have h1 : pendingInd id (brokerStep st (.record i r)).1 = 1 := by
        simp [brokerStep, pendingInd, mapGet, hi]
      have h2 : countRecords id [BrokerEv.record i r] = 1 := by
        simp [countRecords, hi]
      omega
    · have h1 : pendingInd id (brokerStep st (.record i r)).1 = pendingInd id st := by
        simp only [brokerStep, pendingInd, mapGet, if_neg hi]
        rw [mapGet_filter_key_ne id i (fun hh => hi hh.symm)]
      have h2 : countRecords id [BrokerEv.record i r] = 0 := by
        simp [countRecords, hi]
      omega
  | result i =>
    have h2 : countRecords id [BrokerEv.result i] = 0 := by simp [countRecords]
    cases hl : mapGet i st.pending with
    | none =>
      simp only [brokerStep, hl, h2]
      simp [countDeliver]
    | some r =>
      by_cases hop : r ∈ st.openSessions
      · by_cases hi : i = id
        · subst hi
          have hpi : pendingInd i st = 1 := by simp [pendingInd, hl]
          have hpi2 : pendingInd i (brokerStep st (.result i)).1 = 0 := by
            simp only [brokerStep, hl, if_pos hop, pendingInd]
            rw [mapGet_filter_key_self]
          have hcd : countDeliver i (brokerStep st (.result i)).2 = 1 := by
            simp [brokerStep, hl, hop, countDeliver]
          omega
        · have hpi2 : pendingInd id (brokerStep st (.result i)).1 = pendingInd id st := by
            simp only [brokerStep, hl, if_pos hop, pendingInd]
            rw [mapGet_filter_key_ne id i (fun hh => hi hh.symm)]
          have hcd : countDeliver id (brokerStep st (.result i)).2 = 0 := by
            simp [brokerStep, hl, hop, countDeliver, hi]
          omega
      · simp only [brokerStep, hl, if_neg hop, h2]
        simp [countDeliver]
  | closeSession s =>
    have h2 : countRecords id [BrokerEv.closeSession s] = 0 := by simp [countRecords]
    have hcd : countDeliver id (brokerStep st (.closeSession s)).2 = 0 := by
      simp [brokerStep, countDeliver]
    cases hl : mapGet id st.pending with
    | none =>
      have hz : pendingInd id (brokerStep st (.closeSession s)).1 = 0 := by
        simp only [brokerStep, pendingInd]
        rw [mapGet_filter_none _ _ _ hl]
      omega
    | some r =>
      have hb := pendingInd_le_one id (brokerStep st (.closeSession s)).1
      have h1 : pendingInd id st = 1 := by simp [pendingInd, hl]
      omega

/-- Forwarded-result counting distributes over concatenation. -/
theorem countDeliver_append (id : Nat) (a b : List BrokerOut) :
    countDeliver id (a ++ b) = countDeliver id a + countDeliver id b := by
  simp [countDeliver, List.filter_append]

/-- Record counting splits off the head event. -/
theorem countRecords_cons (id : Nat) (ev : BrokerEv) (evs : List BrokerEv) :
    countRecords id (ev :: evs) = countRecords id [ev] + countRecords id evs := by
  simp only [countRecords, List.filter_cons]
  split <;> simp [Nat.add_comm]

/-- Along any run, forwarded results for an id never exceed the initial
pending indicator plus the recordings for that id. -/
theorem brokerRun_bound (id : Nat) :
    ∀ (evs : List BrokerEv) (st : BrokerState),
      countDeliver id (brokerRun st evs).2 + pendingInd id (brokerRun st evs).1
        ≤ pendingInd id st + countRecords id evs := by
  intro evs
  induction evs with
  | nil =>
    intro st
    simp [brokerRun, countDeliver, countRecords]
  | cons ev evs ih =>
    intro st
    have h1 := brokerStep_bound st ev id
    have h2 := ih (brokerStep st ev).1
    have h3 := countDeliver_append id (brokerStep st ev).2 (brokerRun (brokerStep st ev).1 evs).2
    have h4 := countRecords_cons id ev evs
    simp only [brokerRun] at *
    omega

/-- C2: from the initial broker state, at most one control_result is
forwarded per recorded pending entry for an id (count of forwards is
bounded by the count of recordings); a forward happens only for the
recorded replyTo while that session is open and only on a control_result
event; a control_result with no pending entry changes nothing and sends
nothing; and closing a session removes every pending entry whose replyTo it
was. -/
theorem c2_control_at_most_once :
    (∀ (evs : List BrokerEv) (id : Nat),
      countDeliver id (brokerRun brokerInit evs).2 ≤ countRecords id evs)
    ∧ (∀ (st : BrokerState) (ev : BrokerEv) (id dest : Nat),
      BrokerOut.deliverResult id dest ∈ (brokerStep st ev).2 →
      mapGet id st.pending = some dest ∧ dest ∈ st.openSessions ∧ ev = .result id)
    ∧ (∀ (st : BrokerState) (id : Nat), mapGet id st.pending = none →
      brokerStep st (.result id) = (st, []))
    ∧ (∀ (st : BrokerState) (s : Nat) (e : Nat × Nat),
      e ∈ (brokerStep st (.closeSession s)).1.pending → e.2 ≠ s) := by
  refine ⟨?_, ?_, ?_, ?_⟩
  · intro evs id
    have h := brokerRun_bound id evs brokerInit
    have h0 : pendingInd id brokerInit = 0 := by simp [pendingInd, brokerInit, mapGet]
    omega
  · intro st ev id dest hmem
    cases ev with
    | connect s => simp [brokerStep] at hmem
    | record i r => simp [brokerStep] at hmem
    | closeSession s => simp [brokerStep] at hmem
    | result i =>
      cases hl : mapGet i st.pending with
      | none => simp [brokerStep, hl] at hmem
      | some r =>
        by_cases hop : r ∈ st.openSessions
        · simp only [brokerStep, hl, if_pos hop, List.mem_singleton] at hmem
          cases hmem
          exact ⟨hl, hop, rfl⟩
        · simp [brokerStep, hl, hop] at hmem
  · intro st id h
    simp [brokerStep, h]
  · intro st s e he
    simp only [brokerStep] at he
    have := List.of_mem_filter he
    exact of_decide_eq_true this

/-- C2 witness: the only-while-open conjunct instantiated at a one-entry
pending map and its open session. -/
theorem c2_witness :
    mapGet 1 (BrokerState.mk [(1, 2)] [2]).pending = some 2
    ∧ (2 : Nat) ∈ (BrokerState.mk [(1, 2)] [2]).openSessions
    ∧ BrokerEv.result 1 = BrokerEv.result 1 :=
  c2_control_at_most_once.2.1 (BrokerState.mk [(1, 2)] [2]) (.result 1) 1 2 (by decide)
